import Mathlib

/-!
Verification of the Freepik client-side orchestration layer: the task
submission/polling state machine (`src/api/tasks.py`, `src/api/client.py`),
the content-addressed result cache (`src/utils/cache.py`), the confirmation
gate (`src/nodes/editing/upscaler_nodes.py`) and the Mystic generation
node's parameter handling (`src/nodes/generation/mystic_node.py`),
shallowly embedded as pure Lean functions.
-/

/-- JSON-like values, modelling the Python dict/list/str/int/bool/None data
that flows through the API client. Objects are association lists of
key/value pairs in insertion order (Python dicts keep unique keys). -/
inductive JValue where
  | null : JValue
  | bool : Bool → JValue
  | num : Int → JValue
  | str : String → JValue
  | arr : List JValue → JValue
  | obj : List (String × JValue) → JValue

/-- First-match lookup in an association list (Python `d[k]` / `k in d`). -/
def alistFind {β : Type} (l : List (String × β)) (k : String) : Option β :=
  match l with
  | [] => none
  | (k', v) :: rest => if k' = k then some v else alistFind rest k

/-- Python `d[k] = v`: replace the binding if the key exists, else append. -/
def alistInsert {β : Type} (l : List (String × β)) (k : String) (v : β) :
    List (String × β) :=
  match l with
  | [] => [(k, v)]
  | (k', v') :: rest =>
      if k' = k then (k, v) :: rest else (k', v') :: alistInsert rest k v

/-- Python `d.pop(k)`: drop every binding of the key. -/
def alistRemove {β : Type} (l : List (String × β)) (k : String) :
    List (String × β) :=
  l.filter (fun p => p.1 ≠ k)

/-- Python `k in d`. -/
def alistContains {β : Type} (l : List (String × β)) (k : String) : Bool :=
  match l with
  | [] => false
  | (k', _) :: rest => k' = k || alistContains rest k

/-- Field lookup on a JSON object; `none` for non-objects or absent keys. -/
def JValue.get? (v : JValue) (k : String) : Option JValue :=
  match v with
  | .obj fields => alistFind fields k
  | _ => none

/-- Python truthiness of a JSON value (`if not output_url: ...`):
`None`, `False`, `0`, `""`, `[]` and the empty dict are falsy. -/
def pyFalsy (v : JValue) : Bool :=
  match v with
  | .null => true
  | .bool b => !b
  | .num n => n = 0
  | .str s => s.isEmpty
  | .arr l => l.isEmpty
  | .obj l => l.isEmpty

theorem alistFind_insert_self {β : Type} (l : List (String × β)) (k : String)
    (v : β) : alistFind (alistInsert l k v) k = some v := by
  induction l with
  | nil => simp [alistInsert, alistFind]
  | cons p rest ih =>
      by_cases h : p.1 = k
      · simp [alistInsert, h, alistFind]
      · simp [alistInsert, h, alistFind, ih]

theorem alistContains_insert_self {β : Type} (l : List (String × β))
    (k : String) (v : β) : alistContains (alistInsert l k v) k = true := by
  induction l with
  | nil => simp [alistInsert, alistContains]
  | cons p rest ih =>
      by_cases h : p.1 = k
      · simp [alistInsert, h, alistContains]
      · simp [alistInsert, h, alistContains, ih]

theorem alistContains_insert_mono {β : Type} (l : List (String × β))
    (k k' : String) (v : β) (h : alistContains l k = true) :
    alistContains (alistInsert l k' v) k = true := by
  induction l with
  | nil => simp [alistContains] at h
  | cons p rest ih =>
      rcases p with ⟨pk, pv⟩
      simp [alistContains] at h
      by_cases hk : pk = k'
      · subst hk
        simp [alistInsert, alistContains]
        exact h
      · simp [alistInsert, hk, alistContains]
        rcases h with h | h
        · exact Or.inl h
        · exact Or.inr (ih h)

/-- ASCII lowercasing of a string, modelling Python `str.lower()` on the
ASCII status strings the API returns. -/
def toLowerStr (s : String) : String := ⟨s.data.map Char.toLower⟩

mutual

/-- Canonical serialization of a JSON value, modelling
`json.dumps(..., sort_keys=True, default=str)` applied to an
already-key-sorted structure (`src/utils/cache.py:56`). The md5 digest
taken of this string in `_get_cache_key` is a deterministic function of
it, so fingerprint equality is decided at this level. -/
def serializeJ : JValue → String
  | .null => "null"
  | .bool b => if b then "true" else "false"
  | .num n => toString n
  | .str s => "q(" ++ s ++ ")"
  | .arr l => "a(" ++ serializeArr l ++ ")"
  | .obj l => "o(" ++ serializeObj l ++ ")"

/-- Serialization of a JSON array's elements. -/
def serializeArr : List JValue → String
  | [] => ""
  | x :: xs => serializeJ x ++ "," ++ serializeArr xs

/-- Serialization of a JSON object's fields. -/
def serializeObj : List (String × JValue) → String
  | [] => ""
  | (k, v) :: xs => "q(" ++ k ++ "):" ++ serializeJ v ++ "," ++ serializeObj xs

end

/-- Insertion step of the key sort used by `sort_keys=True`. -/
def insertByKey (p : String × JValue) :
    List (String × JValue) → List (String × JValue)
  | [] => [p]
  | q :: rest => if p.1 < q.1 then p :: q :: rest else q :: insertByKey p rest

/-- Stable sort of an object's fields by key, modelling the
canonicalization `json.dumps(params, sort_keys=True)` performs before
hashing (`src/utils/cache.py:45-61`). -/
def sortByKey : List (String × JValue) → List (String × JValue)
  | [] => []
  | p :: rest => insertByKey p (sortByKey rest)

theorem insertByKey_perm (p : String × JValue) (l : List (String × JValue)) :
    List.Perm (insertByKey p l) (p :: l) := by
  induction l with
  | nil => simp [insertByKey]
  | cons q rest ih =>
      by_cases h : p.1 < q.1
      · simp [insertByKey, h]
      · simp only [insertByKey, if_neg h]
        exact (ih.cons q).trans (List.Perm.swap p q rest)

theorem sortByKey_perm (l : List (String × JValue)) :
    List.Perm (sortByKey l) l := by
  induction l with
  | nil => simp [sortByKey]
  | cons p rest ih =>
      exact (insertByKey_perm p (sortByKey rest)).trans (ih.cons p)

/-- Cache fingerprint of a parameter set: the canonical (key-sorted)
serialization, standing for its md5 digest
(`FreepikCache._get_cache_key`, `src/utils/cache.py:45-61`). -/
def cacheKeyOf (params : List (String × JValue)) : String :=
  serializeJ (.obj (sortByKey params))

/-- Python `dict.update`: fold the extra bindings into the base record,
replacing on key collision (`metadata.update(extra_metadata)`,
`src/utils/cache.py:161-162`). -/
def dictUpdate (base extra : List (String × JValue)) : List (String × JValue) :=
  extra.foldl (fun acc p => alistInsert acc p.1 p.2) base

theorem dictUpdate_contains_mono (base extra : List (String × JValue))
    (k : String) (h : alistContains base k = true) :
    alistContains (dictUpdate base extra) k = true := by
  induction extra generalizing base with
  | nil => simpa [dictUpdate] using h
  | cons p rest ih =>
      simp only [dictUpdate, List.foldl_cons] at ih ⊢
      exact ih _ (alistContains_insert_mono base k p.1 p.2 h)

theorem dictUpdate_contains_of_extra (base extra : List (String × JValue))
    (k : String) (h : alistContains extra k = true) :
    alistContains (dictUpdate base extra) k = true := by
  induction extra generalizing base with
  | nil => simp [alistContains] at h
  | cons p rest ih =>
      rcases p with ⟨pk, pv⟩
      simp [alistContains] at h
      simp only [dictUpdate, List.foldl_cons]
      rcases h with h | h
      · subst h
        exact dictUpdate_contains_mono _ rest pk
          (alistContains_insert_self base pk pv)
      · exact ih _ h

/-- An HTTP request about to be handed to the underlying session: building
one of these models the point where a network call is attempted. -/
structure HttpRequest where
  url : String
  headers : List (String × String)

/-- Python truthiness of the stored credential (`if not self.api_key`). -/
def keyTruthy : Option String → Bool
  | none => false
  | some s => !s.isEmpty

/-- Headers construction (`FreepikAPIClient._get_headers`,
`src/api/client.py:46-55`): a falsy credential raises before anything
else happens. -/
def get_headers (apiKey : Option String) :
    Except String (List (String × String)) :=
  if keyTruthy apiKey then
    .ok [("x-freepik-api-key", apiKey.getD ""),
         ("Content-Type", "application/json"),
         ("Accept", "application/json")]
  else .error "API key not set. Use set_api_key() method."

/-- URL construction (`FreepikAPIClient._build_url`,
`src/api/client.py:57-61`). -/
def build_url (endpoint : String) : String :=
  "https://api.freepik.com/" ++ endpoint.dropWhile (· = '/')

/-- POST path of the client (`FreepikAPIClient.post`,
`src/api/client.py:63-99`) up to the session call: the URL and headers
are built, and only then is a request issued; a missing credential
errors out before any `HttpRequest` exists. -/
def post_request (apiKey : Option String) (endpoint : String)
    (hasFiles : Bool) : Except String HttpRequest :=
  let url := build_url endpoint
  match get_headers apiKey with
  | .error e => .error e
  | .ok headers =>
      let headers := if hasFiles then alistRemove headers "Content-Type"
                     else headers
      .ok { url := url, headers := headers }

/-- GET path of the client (`FreepikAPIClient.get`,
`src/api/client.py:113-136`) up to the session call. -/
def get_request (apiKey : Option String) (endpoint : String) :
    Except String HttpRequest :=
  let url := build_url endpoint
  match get_headers apiKey with
  | .error e => .error e
  | .ok headers => .ok { url := url, headers := headers }

/-- Result download (`FreepikAPIClient.download_image`,
`src/api/client.py:200-215`): the session fetches the URL directly; no
headers are built and the credential is never consulted. -/
def download_request (apiKey : Option String) (url : String) :
    Except String HttpRequest :=
  let _ := apiKey
  .ok { url := url, headers := [] }

/-- Task-id extraction of `FreepikAPIClient.create_task`
(`src/api/client.py:150-177`), transcribing the `if 'data' in response:
... elif ... else: raise` chain. `.ok none` models the Python function
falling off the end and returning `None`. -/
def create_task (response : JValue) : Except String (Option JValue) :=
  match response.get? "data" with
  | some d =>
      match d.get? "task_id" with
      | some v => .ok (some v)
      | none =>
          match d.get? "id" with
          | some v => .ok (some v)
          | none => .ok none
  | none =>
      match response.get? "task_id" with
      | some v => .ok (some v)
      | none =>
          match response.get? "id" with
          | some v => .ok (some v)
          | none => .error "Could not extract task_id from response"

/-- The dictionary `FreepikTaskManager._parse_status` builds
(`src/api/tasks.py:102-106`). -/
structure ParsedStatus where
  state : String
  output_url : Option JValue
  error : Option JValue

/-- The `state_map` lookup with identity default
(`state_map.get(status, status)`, `src/api/tasks.py:94-103`). -/
def state_map (s : String) : String :=
  if s = "created" then "created"
  else if s = "in_progress" then "in_progress"
  else if s = "completed" then "completed"
  else if s = "failed" then "failed"
  else if s = "error" then "failed"
  else s

/-- Status parsing (`FreepikTaskManager._parse_status`,
`src/api/tasks.py:85-116`). `none` models the Python call raising: with
no `data` key the local variables `data`/`status` are unbound
(`NameError`), and a non-string status has no `.lower()`. -/
def parse_status (response : JValue) : Option ParsedStatus :=
  match response.get? "data" with
  | none => none
  | some d =>
      let statusRaw : Option String :=
        match d.get? "status" with
        | none => some ""
        | some (.str s) => some (toLowerStr s)
        | some _ => none
      match statusRaw with
      | none => none
      | some status =>
          some { state := state_map status
               , output_url :=
                   match d.get? "generated" with
                   | some (.arr (x :: _)) => some x
                   | _ => none
               , error := d.get? "error" }

/-- What one iteration of the polling loop in
`FreepikTaskManager.execute_and_wait` does with a parsed state
(`src/api/tasks.py:68-81`). -/
inductive StepAction where
  | succeed : StepAction
  | failTask : StepAction
  | poll : StepAction
  | unknown : StepAction
deriving DecidableEq, Repr

/-- The `if/elif/else` dispatch on `status['state']`
(`src/api/tasks.py:69-81`), in source order. -/
def dispatch (state : String) : StepAction :=
  if state = "success" ∨ state = "completed" then .succeed
  else if state = "failed" then .failTask
  else if state = "pending" ∨ state = "processing" ∨ state = "queued" ∨
          state = "created" ∨ state = "in_progress" then .poll
  else .unknown

/-- Parse a polled response and classify it as the loop body would. -/
def pollAction (response : JValue) : Option StepAction :=
  (parse_status response).map (fun st => dispatch st.state)

/-- List indexing `output_url[0]` after the truthiness check
(`src/api/tasks.py:134-135`); non-lists pass through. -/
def extract_first (u : JValue) : JValue :=
  match u with
  | .arr (x :: _) => x
  | _ => u

/-- Dict handling `output_url.get('url', output_url.get('image_url'))`
(`src/api/tasks.py:138-139`); non-dicts pass through, and a dict with
neither key yields Python `None`. -/
def extract_url_field (u : JValue) : JValue :=
  match u with
  | .obj fields =>
      (match alistFind fields "url" with
       | some v => v
       | none => (alistFind fields "image_url").getD .null)
  | _ => u

/-- Reference extraction of `FreepikTaskManager._download_result`
(`src/api/tasks.py:125-144`): the value handed to
`client.download_image`, or the raised no-output error. -/
def download_result_ref (output_url : Option JValue) :
    Except String JValue :=
  match output_url with
  | none => .error "No output URL in successful task"
  | some u =>
      if pyFalsy u then .error "No output URL in successful task"
      else .ok (extract_url_field (extract_first u))

/-- How one orchestration run ends. `crashed` models `_parse_status`
raising (`NameError` / missing `data`). -/
inductive Outcome where
  | succeeded : Except String JValue → Outcome
  | failedTask : Option JValue → Outcome
  | unknownState : String → Outcome
  | timedOut : Outcome
  | crashed : Outcome

/-- The polling loop of `FreepikTaskManager.execute_and_wait`
(`src/api/tasks.py:52-83`) under a discrete time model: polls are
instantaneous, each `time.sleep(poll_interval)` advances the clock `t`
by `pollInterval`, and `elapsedVar` is the Python `elapsed` variable -
assigned from the wall clock right after each poll, hence one sleep
stale when the `while elapsed < max_wait` guard reads it. `sched k` is
the k-th status response; the result pairs the outcome with the wall
time at which the call returns. Fuel bounds the modelled iterations;
the timeout exit consumes none. -/
def execute_and_wait_loop (sched : Nat → JValue) (maxWait pollInterval : Nat) :
    Nat → Nat → Nat → Nat → Option (Outcome × Nat)
  | 0, _, elapsedVar, t =>
      if elapsedVar < maxWait then none else some (.timedOut, t)
  | fuel + 1, k, elapsedVar, t =>
      if elapsedVar < maxWait then
        match parse_status (sched k) with
        | none => some (.crashed, t)
        | some st =>
            match dispatch st.state with
            | .succeed => some (.succeeded (download_result_ref st.output_url), t)
            | .failTask => some (.failedTask st.error, t)
            | .unknown => some (.unknownState st.state, t)
            | .poll =>
                execute_and_wait_loop sched maxWait pollInterval fuel
                  (k + 1) t (t + pollInterval)
      else some (.timedOut, t)

/-- Whole orchestration wait (`execute_and_wait` after task creation):
poll counter, `elapsed` and the clock all start at zero. -/
def execute_and_wait (sched : Nat → JValue) (maxWait pollInterval fuel : Nat) :
    Option (Outcome × Nat) :=
  execute_and_wait_loop sched maxWait pollInterval fuel 0 0 0

/-- Decoded image payload, identified with its pixel data. PNG encoding
is lossless, so `image.save(..., 'PNG')` followed by `Image.open` is the
identity on pixel data and both are modelled away. -/
abbrev ImageData := List Nat

/-- One on-disk cache entry: the image file plus the JSON metadata file
sharing the fingerprint-derived base name (`src/utils/cache.py:63-69`). -/
structure CacheEntry where
  imageBytes : ImageData
  timestamp : Nat
  metadata : List (String × JValue)

/-- The cache: entries keyed by fingerprint, plus the configured maximum
age (`FreepikCache.__init__`, `src/utils/cache.py:18-35`). Timestamps
and ages are in days. -/
structure FreepikCache where
  entries : List (String × CacheEntry)
  maxAgeDays : Nat

/-- Presence check with age validation (`FreepikCache.has_cached`,
`src/utils/cache.py:71-105`): false when files are missing or when
`now - cached_time > max_age`; an expired entry is only reported
absent, nothing is deleted. -/
def has_cached (c : FreepikCache) (params : List (String × JValue))
    (now : Nat) : Bool :=
  match alistFind c.entries (cacheKeyOf params) with
  | none => false
  | some e => !(c.maxAgeDays < now - e.timestamp)

/-- Cached-image retrieval (`FreepikCache.get_cached`,
`src/utils/cache.py:107-129`). -/
def get_cached (c : FreepikCache) (params : List (String × JValue))
    (now : Nat) : Option ImageData :=
  if has_cached c params now then
    (alistFind c.entries (cacheKeyOf params)).map (fun e => e.imageBytes)
  else none

/-- Cache write (`FreepikCache.save_to_cache`, `src/utils/cache.py:
131-170`): image saved under the fingerprint, metadata record built from
timestamp/params/image_size/cache_key and then `update`d with the extras
(skipped when the extras dict is falsy, i.e. empty). `image_size` is
abstracted to the payload length. The base metadata record is split out
here, the stored entry next, and `save_to_cache` itself writes the entry
under the fingerprint. -/
def cacheBaseMeta (params : List (String × JValue)) (img : ImageData)
    (now : Nat) : List (String × JValue) :=
  [("timestamp", .num now), ("params", .obj params),
   ("image_size", .num img.length), ("cache_key", .str (cacheKeyOf params))]

/-- The entry `save_to_cache` persists: image bytes and the metadata
record after the optional `update` with the extras. -/
def cacheSavedEntry (params : List (String × JValue)) (img : ImageData)
    (extra : List (String × JValue)) (now : Nat) : CacheEntry :=
  { imageBytes := img, timestamp := now,
    metadata := if extra.isEmpty then cacheBaseMeta params img now
                else dictUpdate (cacheBaseMeta params img now) extra }

def save_to_cache (c : FreepikCache) (params : List (String × JValue))
    (img : ImageData) (extra : List (String × JValue)) (now : Nat) :
    FreepikCache :=
  { c with entries := (alistInsert c.entries (cacheKeyOf params)
      (cacheSavedEntry params img extra now)) }

/-- Age-thresholded sweep (`FreepikCache.clear_cache` with
`older_than_days`, `src/utils/cache.py:172-214`): every entry with
`cached_time < cutoff` has its image and metadata files removed and is
counted; `cutoff = now - older_than_days`. -/
def clear_cache_older (c : FreepikCache) (olderThanDays : Nat) (now : Nat) :
    FreepikCache × Nat :=
  ({ c with entries :=
      c.entries.filter (fun p => !(p.2.timestamp < now - olderThanDays)) },
   (c.entries.filter (fun p => p.2.timestamp < now - olderThanDays)).length)

/-- Batch execution (`FreepikTaskManager.execute_batch`,
`src/api/tasks.py:152-184`): the parameter sets are walked in list
order; `run` is one `execute_and_wait` call, threading an abstract
environment state `σ` so that sequential order is observable; the
`try/except` appends `None` for a failed task and carries on. -/
def execute_batch {σ : Type} (run : σ → JValue → σ × Except String ImageData) :
    σ → List JValue → σ × List (Option ImageData)
  | s, [] => (s, [])
  | s, p :: rest =>
      let step := run s p
      let slot := match step.2 with
        | .ok img => some img
        | .error _ => none
      let next := execute_batch run step.1 rest
      (next.1, slot :: next.2)

/-- One inbound `handle_confirmation_response`
(`src/nodes/editing/upscaler_nodes.py:85-88`) applied to the shared
table, if a response arrives at this tick. -/
def applyArrival (tbl : List (String × Bool)) (a : Option (String × Bool)) :
    List (String × Bool) :=
  match a with
  | none => tbl
  | some (i, b) => alistInsert tbl i b

/-- The response-handler thread alone: after `request_confirmation` has
returned, later arrivals keep being inserted into the module-level
table and nothing removes them. Processes `rem` ticks starting at tick
`t`. -/
def confirmDrain (arrivals : Nat → Option (String × Bool)) :
    Nat → Nat → List (String × Bool) → List (String × Bool)
  | _, 0, tbl => tbl
  | t, rem + 1, tbl =>
      confirmDrain arrivals (t + 1) rem (applyArrival tbl (arrivals t))

/-- The wait loop of `request_confirmation`
(`src/nodes/editing/upscaler_nodes.py:72-82`) interleaved with the
handler: one tick is one 0.1s sleep, so the 60-second deadline is `w =
600` checks. Each tick first delivers that tick's arrival (under the
lock), then the waiter checks and pops its request id; when `w` runs
out it returns `false` and only the handler keeps running, up to
`horizon`. -/
def request_confirmation_wait (reqId : String)
    (arrivals : Nat → Option (String × Bool)) (horizon : Nat) :
    Nat → Nat → List (String × Bool) → Bool × List (String × Bool)
  | t, 0, tbl => (false, confirmDrain arrivals t (horizon - t) tbl)
  | t, w + 1, tbl =>
      let tbl' := applyArrival tbl (arrivals t)
      match alistFind tbl' reqId with
      | some b =>
          (b, confirmDrain arrivals (t + 1) (horizon - (t + 1))
                (alistRemove tbl' reqId))
      | none => request_confirmation_wait reqId arrivals horizon (t + 1) w tbl'

/-- Full confirmation episode: waiter starts at tick 0 with the 60s
(600-tick) deadline over an initially empty pending table; the handler
remains live until `horizon`. Returns the waiter's boolean and the
final table. -/
def confirmation_system (reqId : String)
    (arrivals : Nat → Option (String × Bool)) (horizon : Nat) :
    Bool × List (String × Bool) :=
  request_confirmation_wait reqId arrivals horizon 0 600 []

/-- Request body built by `FreepikMystic.generate`
(`src/nodes/generation/mystic_node.py:126-142`): base fields in literal
order, then `seed` only when it is not `-1`, then the optional `lora`
object when `lora_id` is truthy. -/
def mysticParams (prompt negPrompt : String) (numImages : Int)
    (resolution aspectRatio : String) (seed : Int)
    (loraId : String) (loraWeight : JValue) : List (String × JValue) :=
  [("prompt", .str prompt), ("negative_prompt", .str negPrompt),
   ("num_images", .num numImages), ("resolution", .str resolution),
   ("aspect_ratio", .str aspectRatio)]
  ++ (if seed ≠ -1 then [("seed", .num seed)] else [])
  ++ (if loraId.isEmpty then []
      else [("lora", .obj [("id", .str loraId), ("weight", loraWeight)])])

/-- Cache-key parameter set of the Mystic node:
`{**params, "api": "mystic"}` (`src/nodes/generation/mystic_node.py:149`). -/
def mysticCacheKeyParams (prompt negPrompt : String) (numImages : Int)
    (resolution aspectRatio : String) (seed : Int)
    (loraId : String) (loraWeight : JValue) : List (String × JValue) :=
  mysticParams prompt negPrompt numImages resolution aspectRatio seed
    loraId loraWeight ++ [("api", .str "mystic")]

/-- Response fixture: a polled body carrying the given remote status
string under `data.status`. -/
def mkStatusResp (s : String) : JValue :=
  .obj [("data", .obj [("status", .str s)])]

/-- Status schedule on which the remote task never reaches a terminal
state: every poll reports `in_progress`. -/
def constPollSched : Nat → JValue := fun _ => mkStatusResp "in_progress"

/-- Arrival pattern for the confirmation channel: a single approving
response for request `"r"` arriving at tick 650 (65 seconds in, five
seconds after the waiter's deadline has expired). -/
def lateArrival : Nat → Option (String × Bool) :=
  fun t => if t = 650 then some ("r", true) else none

/-- Environment for the batch witness: the abstract state counts the
orchestration calls made so far; a falsy parameter set fails, any other
yields an image recording the call index. -/
def batchRunFixture : Nat → JValue → Nat × Except String ImageData :=
  fun calls p =>
    (calls + 1, if pyFalsy p then .error "Task failed" else .ok [calls])

/-- Cache entry fixture for the expiry witness: stored at day 0. -/
def expiredEntryFixture : CacheEntry :=
  { imageBytes := [1, 2], timestamp := 0, metadata := [] }

/-- Cache fixture holding `expiredEntryFixture` under the fingerprint of
the empty parameter set, with a 30-day maximum age. -/
def expiredCacheFixture : FreepikCache :=
  { entries := [("o()", expiredEntryFixture)], maxAgeDays := 30 }

theorem pollAction_mkStatusResp (s : String) :
    pollAction (mkStatusResp s) =
      some (dispatch (state_map (toLowerStr s))) := rfl

/-- C1 (confirmed): for every polled remote status string, the loop body
of `execute_and_wait` keeps polling on each of created, queued, pending,
in_progress, processing; treats completed and success as success
(result download begins); treats failed and error as failure; and any
status whose lowercasing is none of these falls into the `else` branch
raising the unknown-status error, which nothing retries. -/
theorem c1_status_mapping :
    (∀ s, s ∈ ["created", "queued", "pending", "in_progress", "processing"] →
      pollAction (mkStatusResp s) = some StepAction.poll) ∧
    (∀ s, s ∈ ["completed", "success"] →
      pollAction (mkStatusResp s) = some StepAction.succeed) ∧
    (∀ s, s ∈ ["failed", "error"] →
      pollAction (mkStatusResp s) = some StepAction.failTask) ∧
    (∀ s, toLowerStr s ∉ ["created", "queued", "pending", "in_progress",
        "processing", "completed", "success", "failed", "error"] →
      pollAction (mkStatusResp s) = some StepAction.unknown) := by
  refine ⟨?_, ?_, ?_, ?_⟩
  · intro s hs
    fin_cases hs <;> decide
  · intro s hs
    fin_cases hs <;> decide
  · intro s hs
    fin_cases hs <;> decide
  · intro s h
    rw [pollAction_mkStatusResp]
    simp only [List.mem_cons, List.not_mem_nil, or_false] at h
    push_neg at h
    obtain ⟨h1, h2, h3, h4, h5, h6, h7, h8, h9⟩ := h
    simp [state_map, dispatch, h1, h2, h3, h4, h5, h6, h7, h8, h9]

/-- Witness for C1 at concrete statuses, one from each class (with
`"cancelled"` as a status outside the recognized vocabulary). -/
theorem c1_status_mapping_witness :
    pollAction (mkStatusResp "queued") = some StepAction.poll ∧
    pollAction (mkStatusResp "success") = some StepAction.succeed ∧
    pollAction (mkStatusResp "error") = some StepAction.failTask ∧
    pollAction (mkStatusResp "cancelled") = some StepAction.unknown :=
  ⟨c1_status_mapping.1 "queued" (by decide),
   c1_status_mapping.2.1 "success" (by decide),
   c1_status_mapping.2.2.1 "error" (by decide),
   c1_status_mapping.2.2.2 "cancelled" (by decide)⟩

/-- C2 (code bug): evaluating `create_task` at the failing input. When
the response carries a `data` object with neither `task_id` nor `id`,
the `if 'data' in response` branch is taken, neither inner key matches,
and the function falls off the end: it returns Python `None` (`.ok
none`) instead of raising the extraction error its own docstring and
the spec promise - and the top-level `task_id` present here is never
consulted, contradicting the claimed four-shape priority order. -/
theorem c2_create_task_returns_none :
    create_task (.obj [("data", JValue.obj []),
                       ("task_id", JValue.str "t-123")]) = .ok none := rfl

theorem execute_and_wait_loop_timeout (sched : Nat → JValue)
    (maxWait pollInterval : Nat) (hpi : 1 ≤ pollInterval)
    (hsched : ∀ k, pollAction (sched k) = some StepAction.poll) :
    ∀ fuel k elapsedVar t, elapsedVar ≤ t → t ≤ elapsedVar + pollInterval →
      elapsedVar < maxWait + pollInterval →
      maxWait + pollInterval ≤ t + fuel * pollInterval →
      ∃ T, execute_and_wait_loop sched maxWait pollInterval fuel k
            elapsedVar t = some (Outcome.timedOut, T) ∧
        maxWait ≤ T ∧ T < maxWait + 2 * pollInterval := by
  intro fuel
  induction fuel with
  | zero =>
      intro k e t het hte hlt hfuel
      have hmw : ¬(e < maxWait) := by omega
      refine ⟨t, ?_, by omega, by omega⟩
      simp [execute_and_wait_loop, hmw]
  | succ fuel ih =>
      intro k e t het hte hlt hfuel
      by_cases hmw : e < maxWait
      · have hact := hsched k
        rw [pollAction] at hact
        cases hps : parse_status (sched k) with
        | none => rw [hps] at hact; cases hact
        | some st =>
            rw [hps] at hact
            have hdisp : dispatch st.state = StepAction.poll :=
              Option.some_injective _ hact
            rw [Nat.succ_mul] at hfuel
            have hrec := ih (k + 1) t (t + pollInterval) (by omega)
              (by omega) (by omega) (by omega)
            obtain ⟨T, hT, hT1, hT2⟩ := hrec
            refine ⟨T, ?_, hT1, hT2⟩
            rw [execute_and_wait_loop, if_pos hmw, hps]
            simp only [hdisp]
            exact hT
      · refine ⟨t, ?_, by omega, by omega⟩
        rw [execute_and_wait_loop, if_neg hmw]

/-- C3 (amended): on a schedule whose statuses never leave the polling
class and with a positive poll interval, the orchestration ends in the
`timedOut` outcome - a constructor distinct from the task-failure
outcome `failedTask` - at a wall time `T` with `maxWait ≤ T`, and it
never blocks longer than the budget plus TWO poll intervals. The
original claim's bound of one poll interval fails (see the
counterexample): the Python `elapsed` read by the `while` guard was
assigned before the preceding sleep, so the loop can overshoot by up to
one extra interval. -/
theorem c3_timeout_bound (sched : Nat → JValue)
    (maxWait pollInterval fuel : Nat) (hpi : 1 ≤ pollInterval)
    (hsched : ∀ k, pollAction (sched k) = some StepAction.poll)
    (hfuel : maxWait + pollInterval ≤ fuel * pollInterval) :
    ∃ T, execute_and_wait sched maxWait pollInterval fuel =
        some (Outcome.timedOut, T) ∧
      maxWait ≤ T ∧ T < maxWait + 2 * pollInterval :=
  execute_and_wait_loop_timeout sched maxWait pollInterval hpi hsched fuel
    0 0 0 (Nat.le_refl 0) (by omega) (by omega) (by omega)

/-- Witness for C3 (amended) at the Mystic defaults: budget 300s, poll
interval 3s, statuses forever `in_progress`. -/
theorem c3_timeout_bound_witness :
    ∃ T, execute_and_wait constPollSched 300 3 101 =
        some (Outcome.timedOut, T) ∧
      300 ≤ T ∧ T < 300 + 2 * 3 :=
  c3_timeout_bound constPollSched 300 3 101 (by omega)
    (fun _ => rfl) (by omega)

/-- C3 counterexample: with budget `max_wait = 5` and `poll_interval =
2` and statuses forever `in_progress`, the orchestration only raises its
timeout at wall time 8s, blocking longer than budget plus one poll
interval (7s) - refuting the claimed bound as stated. -/
theorem c3_counterexample :
    execute_and_wait constPollSched 5 2 10 = some (Outcome.timedOut, 8) ∧
    ¬(8 ≤ 5 + 2) := ⟨rfl, by omega⟩

theorem alistFind_mem {β : Type} (l : List (String × β)) (k : String) (v : β)
    (h : alistFind l k = some v) : (k, v) ∈ l := by
  induction l with
  | nil => simp [alistFind] at h
  | cons p rest ih =>
      rcases p with ⟨pk, pv⟩
      by_cases hk : pk = k
      · subst hk
        simp [alistFind] at h
        subst h
        exact List.mem_cons_self _ _
      · simp only [alistFind, if_neg hk] at h
        exact List.mem_cons_of_mem _ (ih h)

/-- C4 (confirmed): storing a result and immediately looking the same
parameter set up finds the entry again, the returned image is
byte-identical to the stored one (PNG being lossless), and the
persisted metadata record contains every key passed in the extra
metadata. -/
theorem c4_cache_round_trip (c : FreepikCache)
    (params : List (String × JValue)) (img : ImageData)
    (extra : List (String × JValue)) (now : Nat) :
    get_cached (save_to_cache c params img extra now) params now = some img ∧
    alistFind (save_to_cache c params img extra now).entries
      (cacheKeyOf params) = some (cacheSavedEntry params img extra now) ∧
    (cacheSavedEntry params img extra now).imageBytes = img ∧
    (∀ k, alistContains extra k = true →
      alistContains (cacheSavedEntry params img extra now).metadata k = true)
    := by
  have hfind : alistFind (save_to_cache c params img extra now).entries
      (cacheKeyOf params) = some (cacheSavedEntry params img extra now) := by
    simp only [save_to_cache]
    exact alistFind_insert_self _ _ _
  refine ⟨?_, hfind, rfl, ?_⟩
  · simp [get_cached, has_cached, hfind, cacheSavedEntry]
  · intro k hk
    cases extra with
    | nil => simp [alistContains] at hk
    | cons p rest =>
        simp only [cacheSavedEntry, List.isEmpty_cons, Bool.false_eq_true,
          if_false]
        exact dictUpdate_contains_of_extra _ _ _ hk

/-- Witness for C4: a one-field parameter set, a two-byte image and one
extra metadata key, stored into an empty cache at day 5. -/
theorem c4_cache_round_trip_witness :
    get_cached (save_to_cache ⟨[], 30⟩ [("prompt", JValue.str "a cat")]
        [9, 9] [("cost", JValue.num 1)] 5)
      [("prompt", JValue.str "a cat")] 5 = some [9, 9] ∧
    alistContains (cacheSavedEntry [("prompt", JValue.str "a cat")] [9, 9]
        [("cost", JValue.num 1)] 5).metadata "cost" = true := by
  obtain ⟨h1, _, _, h4⟩ := c4_cache_round_trip ⟨[], 30⟩
    [("prompt", JValue.str "a cat")] [9, 9] [("cost", JValue.num 1)] 5
  exact ⟨h1, h4 "cost" (by decide)⟩

/-- C5 (confirmed): an entry whose age strictly exceeds the configured
maximum is reported absent by lookup while its files stay in place
(lookup mutates nothing; the entry is still found on disk), and the
explicit sweep at that same threshold removes the entry and counts it
among the removed. Both the lookup expiry test `age > max_age` and the
sweep test `cached_time < now - older_than_days` amount to
`timestamp + threshold < now`. -/
theorem c5_cache_expiry (c : FreepikCache) (params : List (String × JValue))
    (e : CacheEntry) (now : Nat)
    (hfind : alistFind c.entries (cacheKeyOf params) = some e)
    (hold : e.timestamp + c.maxAgeDays < now) :
    has_cached c params now = false ∧
    get_cached c params now = none ∧
    (cacheKeyOf params, e) ∉ (clear_cache_older c c.maxAgeDays now).1.entries ∧
    1 ≤ (clear_cache_older c c.maxAgeDays now).2 := by
  have h1 : has_cached c params now = false := by
    simp [has_cached, hfind]
    omega
  refine ⟨h1, ?_, ?_, ?_⟩
  · simp [get_cached, h1]
  · intro hmem
    simp only [clear_cache_older] at hmem
    rw [List.mem_filter] at hmem
    have h2 := hmem.2
    simp at h2
    omega
  · have hmem : (cacheKeyOf params, e) ∈ c.entries := alistFind_mem _ _ _ hfind
    have hmf : (cacheKeyOf params, e) ∈
        c.entries.filter (fun p => p.2.timestamp < now - c.maxAgeDays) := by
      rw [List.mem_filter]
      refine ⟨hmem, ?_⟩
      simp
      omega
    simp only [clear_cache_older]
    exact List.length_pos.mpr (List.ne_nil_of_mem hmf)

/-- Witness for C5: an entry stored at day 0 in a cache with a 30-day
maximum age, observed at day 31. -/
theorem c5_cache_expiry_witness :
    has_cached expiredCacheFixture [] 31 = false ∧
    get_cached expiredCacheFixture [] 31 = none ∧
    (cacheKeyOf [], expiredEntryFixture) ∉
      (clear_cache_older expiredCacheFixture
        expiredCacheFixture.maxAgeDays 31).1.entries ∧
    1 ≤ (clear_cache_older expiredCacheFixture
        expiredCacheFixture.maxAgeDays 31).2 :=
  c5_cache_expiry expiredCacheFixture [] expiredEntryFixture 31 rfl
    (by decide)

/-- C6 (amended): task submission and status polling fail fast with the
missing-credential error before any request object exists, for every
falsy credential; result download, by contrast, builds and issues its
request without ever consulting the credential. The original claim -
that all three transport operations check the credential first - fails
on the download path (see the counterexample). -/
theorem c6_credential_check (apiKey : Option String) (endpoint url : String)
    (hasFiles : Bool) (hkey : keyTruthy apiKey = false) :
    post_request apiKey endpoint hasFiles =
      .error "API key not set. Use set_api_key() method." ∧
    get_request apiKey endpoint =
      .error "API key not set. Use set_api_key() method." ∧
    download_request apiKey url = .ok { url := url, headers := [] } := by
  refine ⟨?_, ?_, rfl⟩ <;>
    simp [post_request, get_request, get_headers, hkey]

/-- Witness for C6 (amended) with no credential at all. -/
theorem c6_credential_check_witness :
    post_request none "/v1/ai/mystic" false =
      .error "API key not set. Use set_api_key() method." ∧
    get_request none "/v1/ai/mystic/task-1" =
      .error "API key not set. Use set_api_key() method." ∧
    download_request none "https://cdn.example/img.png" =
      .ok { url := "https://cdn.example/img.png", headers := [] } :=
  c6_credential_check none "/v1/ai/mystic" "https://cdn.example/img.png"
    false rfl

/-- C6 counterexample: `download_image` with no credential configured
still proceeds straight to the network fetch, instead of the
missing-credential failure the claim requires for result downloads. -/
theorem c6_counterexample :
    download_request none "https://cdn.example/result.png" =
      .ok { url := "https://cdn.example/result.png", headers := [] } := rfl

/-- C7 (amended): after success, reference extraction tolerates the
three shapes - a list (first element taken, itself subject to the
url-field rule), a plain non-empty string, an object with a `url` or
`image_url` field - and the fatal missing-result error is raised
exactly when the top-level reference is absent or Python-falsy (None,
empty string, empty list). An object bearing neither url key is NOT
rejected: its extraction yields Python `None`, which flows on to the
download step (see the counterexample), so the original claim's
"missing reference implies the fatal error" fails. -/
theorem c7_result_extraction (s : String) (x : JValue) (rest : List JValue)
    (fields : List (String × JValue)) (v : JValue) :
    download_result_ref none = .error "No output URL in successful task" ∧
    (pyFalsy x = true →
      download_result_ref (some x) =
        .error "No output URL in successful task") ∧
    (s.isEmpty = false →
      download_result_ref (some (.str s)) = .ok (.str s)) ∧
    download_result_ref (some (.arr (x :: rest))) =
      .ok (extract_url_field x) ∧
    (alistFind fields "url" = some v →
      extract_url_field (.obj fields) = v) ∧
    (alistFind fields "url" = none → alistFind fields "image_url" = some v →
      extract_url_field (.obj fields) = v) ∧
    (alistFind fields "url" = none → alistFind fields "image_url" = none →
      extract_url_field (.obj fields) = .null) := by
  refine ⟨rfl, ?_, ?_, ?_, ?_, ?_, ?_⟩
  · intro h
    simp [download_result_ref, h]
  · intro h
    simp [download_result_ref, pyFalsy, h, extract_first, extract_url_field]
  · simp [download_result_ref, pyFalsy, extract_first]
  · intro h
    simp [extract_url_field, h]
  · intro h1 h2
    simp [extract_url_field, h1, h2]
  · intro h1 h2
    simp [extract_url_field, h1, h2]

/-- Witness for C7 (amended): a non-empty string reference is accepted
as-is, and an object carrying only `image_url` yields that field. -/
theorem c7_result_extraction_witness :
    download_result_ref (some (JValue.str "https://cdn.example/a.png")) =
      .ok (JValue.str "https://cdn.example/a.png") ∧
    extract_url_field (JValue.obj [("image_url", JValue.str "v")]) =
      JValue.str "v" :=
  ⟨(c7_result_extraction "https://cdn.example/a.png" JValue.null [] []
      JValue.null).2.2.1 rfl,
   (c7_result_extraction "x" JValue.null [] [("image_url", JValue.str "v")]
      (JValue.str "v")).2.2.2.2.2.1 rfl rfl⟩

/-- C7 counterexample: a truthy result object that carries neither
`url` nor `image_url` is not rejected with the missing-result error;
extraction silently produces Python `None` and the code proceeds to the
download step with it. -/
theorem c7_counterexample :
    download_result_ref (some (JValue.obj [("type", JValue.str "png")])) =
      .ok JValue.null := rfl

theorem alistFind_insert_ne {β : Type} (l : List (String × β))
    (k k' : String) (v : β) (hne : k' ≠ k) :
    alistFind (alistInsert l k' v) k = alistFind l k := by
  induction l with
  | nil => simp [alistInsert, alistFind, hne]
  | cons p rest ih =>
      rcases p with ⟨pk, pv⟩
      by_cases hk : pk = k'
      · subst hk
        simp [alistInsert, alistFind, hne]
      · simp [alistInsert, hk, alistFind, ih]

theorem applyArrival_find_none (tbl : List (String × Bool)) (reqId : String)
    (a : Option (String × Bool)) (ha : ∀ b, a ≠ some (reqId, b))
    (h : alistFind tbl reqId = none) :
    alistFind (applyArrival tbl a) reqId = none := by
  cases a with
  | none => simpa [applyArrival] using h
  | some p =>
      rcases p with ⟨i, b⟩
      have hne : i ≠ reqId := by
        intro hEq
        exact ha b (by rw [hEq])
      show alistFind (alistInsert tbl i b) reqId = none
      rw [alistFind_insert_ne _ _ _ _ hne]
      exact h

theorem confirmDrain_find_none (arrivals : Nat → Option (String × Bool))
    (reqId : String) (hall : ∀ t b, arrivals t ≠ some (reqId, b)) :
    ∀ rem t tbl, alistFind tbl reqId = none →
      alistFind (confirmDrain arrivals t rem tbl) reqId = none := by
  intro rem
  induction rem with
  | zero =>
      intro t tbl h
      simpa [confirmDrain] using h
  | succ rem ih =>
      intro t tbl h
      rw [confirmDrain]
      exact ih (t + 1) _
        (applyArrival_find_none tbl reqId (arrivals t) (hall t) h)

theorem request_confirmation_wait_timeout (reqId : String)
    (arrivals : Nat → Option (String × Bool)) (horizon : Nat) :
    ∀ w t tbl, (∀ t' b, t' < t + w → arrivals t' ≠ some (reqId, b)) →
      alistFind tbl reqId = none →
      (request_confirmation_wait reqId arrivals horizon t w tbl).1 = false ∧
      ((∀ t' b, arrivals t' ≠ some (reqId, b)) →
        alistFind
          (request_confirmation_wait reqId arrivals horizon t w tbl).2
          reqId = none) := by
  intro w
  induction w with
  | zero =>
      intro t tbl hwin htbl
      rw [request_confirmation_wait]
      exact ⟨rfl,
        fun hall => confirmDrain_find_none arrivals reqId hall _ _ _ htbl⟩
  | succ w ih =>
      intro t tbl hwin htbl
      have hat : ∀ b, arrivals t ≠ some (reqId, b) :=
        fun b => hwin t b (by omega)
      have htbl' : alistFind (applyArrival tbl (arrivals t)) reqId = none :=
        applyArrival_find_none tbl reqId (arrivals t) hat htbl
      simp only [request_confirmation_wait, htbl']
      exact ih (t + 1) _ (fun t' b hlt => hwin t' b (by omega)) htbl'

/-- C8 (amended): when no matching response arrives within the
60-second window (600 poll ticks of 0.1s), `request_confirmation`
returns `false`; and since a pending request is never pre-registered in
the module-level table, if no matching response EVER arrives no entry
for the request id remains. The original claim's stronger guarantee -
no entry remains regardless of when a response arrives - fails: a
response arriving after the deadline is inserted by
`handle_confirmation_response` and never removed (see the
counterexample). -/
theorem c8_confirmation_deadline (reqId : String)
    (arrivals : Nat → Option (String × Bool)) (horizon : Nat)
    (hwin : ∀ t b, t < 600 → arrivals t ≠ some (reqId, b)) :
    (confirmation_system reqId arrivals horizon).1 = false ∧
    ((∀ t b, arrivals t ≠ some (reqId, b)) →
      alistFind (confirmation_system reqId arrivals horizon).2 reqId
        = none) :=
  request_confirmation_wait_timeout reqId arrivals horizon 600 0 []
    (fun t' b hlt => hwin t' b (by omega)) rfl

/-- Witness for C8 (amended): no response ever arrives; the call
resolves to `false` and the table stays clean of the request id. -/
theorem c8_confirmation_deadline_witness :
    (confirmation_system "r" (fun _ => none) 700).1 = false ∧
    alistFind (confirmation_system "r" (fun _ => none) 700).2 "r" = none :=
  ⟨(c8_confirmation_deadline "r" (fun _ => none) 700
      (fun _ _ _ h => Option.noConfusion h)).1,
   (c8_confirmation_deadline "r" (fun _ => none) 700
      (fun _ _ _ h => Option.noConfusion h)).2
     (fun _ _ h => Option.noConfusion h)⟩

set_option maxRecDepth 20000 in
/-- C8 counterexample: the approving response for request `"r"` arrives
at tick 650, five seconds after the deadline; `request_confirmation`
has already returned `false`, yet the handler inserts the slot into the
shared pending table where it remains - refuting the claim that no
entry for the request id remains regardless of when a response
arrives. -/
theorem c8_counterexample :
    (confirmation_system "r" lateArrival 700).1 = false ∧
    alistFind (confirmation_system "r" lateArrival 700).2 "r" =
      some true := ⟨rfl, rfl⟩

theorem execute_batch_length {σ : Type}
    (run : σ → JValue → σ × Except String ImageData) :
    ∀ (s : σ) (ps : List JValue),
      (execute_batch run s ps).2.length = ps.length := by
  intro s ps
  induction ps generalizing s with
  | nil => simp [execute_batch]
  | cons p rest ih =>
      simp only [execute_batch, List.length_cons]
      rw [ih]

theorem execute_batch_state {σ : Type}
    (run : σ → JValue → σ × Except String ImageData) :
    ∀ (s : σ) (ps : List JValue),
      (execute_batch run s ps).1 = ps.foldl (fun st r => (run st r).1) s := by
  intro s ps
  induction ps generalizing s with
  | nil => simp [execute_batch]
  | cons p rest ih =>
      simp only [execute_batch, List.foldl_cons]
      rw [ih]

/-- C9 (confirmed): batch execution yields exactly one output slot per
input in order; its final environment state is the left fold of the
single-task runs over the inputs in list order (strict sequentiality:
each task observes the state its predecessors left); a failing task
contributes an absent (`none`) slot and the remaining tasks still run,
from the state the failure left; a succeeding task contributes its
image. -/
theorem c9_batch {σ : Type}
    (run : σ → JValue → σ × Except String ImageData)
    (s s' s2 : σ) (ps : List JValue) (p q : JValue)
    (rest rest2 : List JValue) (msg : String) (img : ImageData)
    (hfail : run s p = (s', .error msg))
    (hok : run s q = (s2, .ok img)) :
    (execute_batch run s ps).2.length = ps.length ∧
    (execute_batch run s ps).1 = ps.foldl (fun st r => (run st r).1) s ∧
    execute_batch run s (p :: rest) =
      ((execute_batch run s' rest).1,
        none :: (execute_batch run s' rest).2) ∧
    execute_batch run s (q :: rest2) =
      ((execute_batch run s2 rest2).1,
        some img :: (execute_batch run s2 rest2).2) := by
  refine ⟨execute_batch_length run s ps, execute_batch_state run s ps,
    ?_, ?_⟩
  · simp only [execute_batch, hfail]
  · simp only [execute_batch, hok]

/-- Witness for C9: the counting environment, a batch whose second task
fails; the failure slot is `none`, later tasks still run and observe
the advanced call counter. -/
theorem c9_batch_witness :
    (execute_batch batchRunFixture 1 [JValue.str "a", JValue.null]).2.length
      = 2 ∧
    (execute_batch batchRunFixture 1 [JValue.str "a", JValue.null]).1 =
      [JValue.str "a", JValue.null].foldl
        (fun st r => (batchRunFixture st r).1) 1 ∧
    execute_batch batchRunFixture 1 (JValue.null :: [JValue.str "b"]) =
      ((execute_batch batchRunFixture 2 [JValue.str "b"]).1,
        none :: (execute_batch batchRunFixture 2 [JValue.str "b"]).2) ∧
    execute_batch batchRunFixture 1 (JValue.str "b" :: [JValue.null]) =
      ((execute_batch batchRunFixture 2 [JValue.null]).1,
        some [1] :: (execute_batch batchRunFixture 2 [JValue.null]).2) :=
  c9_batch batchRunFixture 1 2 2 [JValue.str "a", JValue.null] JValue.null
    (JValue.str "b") [JValue.str "b"] [JValue.null] "Task failed" [1]
    rfl rfl

theorem get_cached_after_save (c : FreepikCache)
    (params : List (String × JValue)) (img : ImageData)
    (extra : List (String × JValue)) (now : Nat) :
    get_cached (save_to_cache c params img extra now) params now
      = some img := by
  have hfind : alistFind (save_to_cache c params img extra now).entries
      (cacheKeyOf params) = some (cacheSavedEntry params img extra now) := by
    simp only [save_to_cache]
    exact alistFind_insert_self _ _ _
  simp [get_cached, has_cached, hfind, cacheSavedEntry]

/-- C10 (confirmed): in the Mystic node a seed of -1 is omitted from
both the submitted parameters and the cache-key parameters; two calls
identical except that both use seed -1 build the very same cache-key
parameter set, so the second lookup hits the entry the first stored;
and two calls with distinct explicit seeds have distinct canonical
(key-sorted) parameter sets, hence distinct fingerprints under the
deterministic hash. -/
theorem c10_seed_cache (prompt negPrompt : String) (numImages : Int)
    (resolution aspectRatio loraId : String) (loraWeight : JValue)
    (c : FreepikCache) (img : ImageData) (extra : List (String × JValue))
    (now : Nat) :
    alistFind (mysticParams prompt negPrompt numImages resolution
      aspectRatio (-1) loraId loraWeight) "seed" = none ∧
    alistFind (mysticCacheKeyParams prompt negPrompt numImages resolution
      aspectRatio (-1) loraId loraWeight) "seed" = none ∧
    get_cached (save_to_cache c (mysticCacheKeyParams prompt negPrompt
        numImages resolution aspectRatio (-1) loraId loraWeight) img extra
        now)
      (mysticCacheKeyParams prompt negPrompt numImages resolution
        aspectRatio (-1) loraId loraWeight) now = some img ∧
    (∀ s1 s2 : Int, s1 ≠ -1 → s2 ≠ -1 → s1 ≠ s2 →
      sortByKey (mysticCacheKeyParams prompt negPrompt numImages resolution
        aspectRatio s1 loraId loraWeight) ≠
      sortByKey (mysticCacheKeyParams prompt negPrompt numImages resolution
        aspectRatio s2 loraId loraWeight)) := by
  refine ⟨?_, ?_, get_cached_after_save _ _ _ _ _, ?_⟩
  · by_cases hl : loraId.isEmpty <;>
      simp [mysticParams, alistFind, hl]
  · by_cases hl : loraId.isEmpty <;>
      simp [mysticCacheKeyParams, mysticParams, alistFind, hl]
  · intro s1 s2 h1 h2 hne heq
    have hmem1 : ("seed", JValue.num s1) ∈
        mysticCacheKeyParams prompt negPrompt numImages resolution
          aspectRatio s1 loraId loraWeight := by
      simp [mysticCacheKeyParams, mysticParams, h1]
    have hmem1s := (sortByKey_perm _).symm.subset hmem1
    rw [heq] at hmem1s
    have hmem2 := (sortByKey_perm _).subset hmem1s
    by_cases hl : loraId.isEmpty
    · simp [mysticCacheKeyParams, mysticParams, h2, hl] at hmem2
      exact hne hmem2
    · simp [mysticCacheKeyParams, mysticParams, h2, hl] at hmem2
      exact hne hmem2

/-- Witness for C10 at a concrete generation call: seed -1 absent from
the submitted parameters, and explicit seeds 1 and 2 canonicalize to
different fingerprint preimages. -/
theorem c10_seed_cache_witness :
    alistFind (mysticParams "a cat" "blurry" 1 "2k" "widescreen_16_9"
      (-1) "" JValue.null) "seed" = none ∧
    sortByKey (mysticCacheKeyParams "a cat" "blurry" 1 "2k"
        "widescreen_16_9" 1 "" JValue.null) ≠
      sortByKey (mysticCacheKeyParams "a cat" "blurry" 1 "2k"
        "widescreen_16_9" 2 "" JValue.null) := by
  obtain ⟨ha, _, _, hd⟩ := c10_seed_cache "a cat" "blurry" 1 "2k"
    "widescreen_16_9" "" JValue.null ⟨[], 30⟩ [5] [] 0
  exact ⟨ha, hd 1 2 (by decide) (by decide) (by decide)⟩
